import Mathlib

/-!
Verification development for the static-youtube-transcript repository.

It embeds, as executable Lean definitions:
* the transcript normalizer (the documented jq query of the app specification
  together with the Alpine `wordCount` / `charCount` computeds);
* the bookmarklet's network interception and capture logic (`bookmarklet.js`);
* the IndexedDB store's upsert (`js/db.js`) and the import upsert loop
  (`functions/api/import.js`);
* the API auth middleware (`functions/api/_middleware.js`).

The theorems at the end of the file settle the stated properties of these
components.
-/

namespace StaticYT

/-! ## JSON value model -/

/-- A JSON value as produced by the host `JSON.parse`.  Numbers are modelled as
integers (the caption payloads and all inputs considered here carry only
integer numbers). -/
inductive Json where
  | null : Json
  | bool (b : Bool) : Json
  | num (n : Int) : Json
  | str (s : String) : Json
  | arr (elems : List Json) : Json
  | obj (fields : List (String × Json)) : Json

/-- Property access `j.k` on a parsed JSON value: defined only on objects,
`undefined` (here `none`) otherwise. -/
def Json.getField : Json → String → Option Json
  | .obj fs, k => fs.lookup k
  | _, _ => none

/-- JS truthiness of a JSON value (as tested by `if (json.events)`). -/
def jsTruthy : Json → Bool
  | .null => false
  | .bool b => b
  | .num n => decide (n ≠ 0)
  | .str s => decide (s ≠ "")
  | .arr _ => true
  | .obj _ => true

/-- JS `.length` of a JSON value: arrays and strings have a length, any other
value yields `undefined` (here `none`). -/
def jsLength : Json → Option Nat
  | .str s => some s.length
  | .arr xs => some xs.length
  | _ => none

/-! ## JSON.parse model

Modelled from the spec: the host `JSON.parse` primitive used by the missing
`index.html` normalizer (spec §4.1 step 1) and by the bookmarklet and API
handlers.  A recursive-descent parser with explicit fuel; the `\uXXXX` string
escape and fractional/exponent number forms are outside the model. -/

/-- Skip JSON whitespace. -/
def skipWs : List Char → List Char
  | [] => []
  | c :: cs => if c = ' ' ∨ c = '\n' ∨ c = '\t' ∨ c = '\r' then skipWs cs else c :: cs

/-- Decode one JSON string escape character (the character after a backslash). -/
def decodeEscape (c : Char) : Option Char :=
  if c = 'n' then some '\n'
  else if c = 't' then some '\t'
  else if c = 'r' then some '\r'
  else if c = 'b' then some (Char.ofNat 8)
  else if c = 'f' then some (Char.ofNat 12)
  else if c = '"' ∨ c = '\\' ∨ c = '/' then some c
  else none

/-- Parse the body of a JSON string after the opening quote, up to and
including the closing quote. -/
def parseStringRest : List Char → Option (String × List Char)
  | [] => none
  | '"' :: cs => some ("", cs)
  | '\\' :: c :: cs =>
    match decodeEscape c with
    | some e =>
      match parseStringRest cs with
      | some (s, rest) => some (String.mk (e :: s.data), rest)
      | none => none
    | none => none
  | c :: cs =>
    match parseStringRest cs with
    | some (s, rest) => some (String.mk (c :: s.data), rest)
    | none => none

/-- Take a maximal run of decimal digits. -/
def takeDigits : List Char → List Char × List Char
  | [] => ([], [])
  | c :: cs =>
    if c.isDigit then
      let (ds, r) := takeDigits cs
      (c :: ds, r)
    else ([], c :: cs)

/-- Numeric value of a digit run. -/
def digitsVal (ds : List Char) : Nat :=
  ds.foldl (fun a c => a * 10 + (c.toNat - 48)) 0

/-- Parse an (optionally negated) integer literal. -/
def parseIntLit : List Char → Option (Int × List Char)
  | '-' :: cs =>
    let (ds, r) := takeDigits cs
    if ds.isEmpty then none else some (-(digitsVal ds : Int), r)
  | cs =>
    let (ds, r) := takeDigits cs
    if ds.isEmpty then none else some ((digitsVal ds : Int), r)

mutual

/-- Parse one JSON value (fueled). -/
def parseValue : Nat → List Char → Option (Json × List Char)
  | 0, _ => none
  | fuel + 1, cs =>
    match skipWs cs with
    | '"' :: rest =>
      match parseStringRest rest with
      | some (s, r) => some (Json.str s, r)
      | none => none
    | 'n' :: 'u' :: 'l' :: 'l' :: r => some (Json.null, r)
    | 't' :: 'r' :: 'u' :: 'e' :: r => some (Json.bool true, r)
    | 'f' :: 'a' :: 'l' :: 's' :: 'e' :: r => some (Json.bool false, r)
    | '[' :: rest =>
      match skipWs rest with
      | ']' :: r => some (Json.arr [], r)
      | rest2 =>
        match parseElems fuel rest2 with
        | some (xs, r) => some (Json.arr xs, r)
        | none => none
    | '{' :: rest =>
      match skipWs rest with
      | '}' :: r => some (Json.obj [], r)
      | rest2 =>
        match parseMembers fuel rest2 with
        | some (fs, r) => some (Json.obj fs, r)
        | none => none
    | rest =>
      match parseIntLit rest with
      | some (n, r) => some (Json.num n, r)
      | none => none
termination_by structural fuel => fuel

/-- Parse the comma-separated elements of a non-empty JSON array, up to and
including the closing bracket (fueled). -/
def parseElems : Nat → List Char → Option (List Json × List Char)
  | 0, _ => none
  | fuel + 1, cs =>
    match parseValue fuel cs with
    | some (x, r) =>
      match skipWs r with
      | ',' :: r2 =>
        match parseElems fuel r2 with
        | some (xs, r3) => some (x :: xs, r3)
        | none => none
      | ']' :: r2 => some ([x], r2)
      | _ => none
    | none => none
termination_by structural fuel => fuel

/-- Parse the comma-separated members of a non-empty JSON object, up to and
including the closing brace (fueled). -/
def parseMembers : Nat → List Char → Option (List (String × Json) × List Char)
  | 0, _ => none
  | fuel + 1, cs =>
    match skipWs cs with
    | '"' :: rest =>
      match parseStringRest rest with
      | some (k, r) =>
        match skipWs r with
        | ':' :: r2 =>
          match parseValue fuel r2 with
          | some (v, r3) =>
            match skipWs r3 with
            | ',' :: r4 =>
              match parseMembers fuel r4 with
              | some (fs, r5) => some ((k, v) :: fs, r5)
              | none => none
            | '}' :: r4 => some ([(k, v)], r4)
            | _ => none
          | none => none
        | _ => none
      | none => none
    | _ => none
termination_by structural fuel => fuel

end

/-- Modelled from the spec: `JSON.parse` (spec §4.1 step 1).  Returns `none`
where the host primitive would throw a `SyntaxError`. -/
def parseJson (s : String) : Option Json :=
  match parseValue (2 * s.length + 2) s.data with
  | some (j, rest) => if (skipWs rest).isEmpty then some j else none
  | none => none

/-! ## Normalizer

The processing step of the missing `index.html`, embedded from the documented
jq query (app specification, section "JQ Processing Query"):

  [.[].events[].segs | select(.) | .[].utf8 | gsub("\\n"; " ")] | join("")

together with the coercion of the two accepted top-level payload shapes to a
sequence of wrapper objects (spec §4.1 step 2, exercised by the format tests). -/

/-- `gsub("\\n"; " ")`: replace every literal newline with a single space. -/
def gsubNewline (s : String) : String :=
  String.mk (s.data.map (fun c => if c = '\n' then ' ' else c))

/-- Text contribution of one segment: its `utf8` field with newlines replaced
by spaces; a missing or non-string `utf8` contributes nothing. -/
def segText (seg : Json) : String :=
  match seg.getField "utf8" with
  | some (.str s) => gsubNewline s
  | _ => ""

/-- Text contribution of one caption event: the concatenation of its segments'
text.  `select(.)` in the jq query drops events whose `segs` is null/absent, so
such an event contributes nothing. -/
def eventText (ev : Json) : String :=
  match ev.getField "segs" with
  | some (.arr segs) => String.join (segs.map segText)
  | _ => ""

/-- The `events` sequence of one top-level wrapper object; a wrapper without
an `events` sequence is skipped (spec §4.1 step 3). -/
def wrapperEvents (w : Json) : List Json :=
  match w.getField "events" with
  | some (.arr evs) => evs
  | _ => []

/-- Modelled from the spec: coercion of the accepted top-level payload shapes
(spec §4.1 step 2): a parsed sequence is used as is, any other parsed value is
treated as a one-element sequence. -/
def coerceWrappers : Json → List Json
  | .arr ws => ws
  | j => [j]

/-- Clean text of a parsed caption payload: all segment texts across all
wrappers and events, concatenated in order with no separator. -/
def cleanTextOfJson (j : Json) : String :=
  String.join ((coerceWrappers j).map (fun w => String.join ((wrapperEvents w).map eventText)))

/-- JS `String.prototype.trim()`: strip leading and trailing whitespace. -/
def jsTrim (s : String) : String :=
  String.mk (((s.data.dropWhile Char.isWhitespace).reverse.dropWhile Char.isWhitespace).reverse)

/-- JS `.split(/\s+/).filter(Boolean)`: the maximal whitespace-delimited
non-empty tokens of a string, via an accumulator for the current token. -/
def wsTokens : List Char → List Char → List String
  | [], acc => if acc.isEmpty then [] else [String.mk acc.reverse]
  | c :: cs, acc =>
    if c.isWhitespace then
      if acc.isEmpty then wsTokens cs [] else String.mk acc.reverse :: wsTokens cs []
    else wsTokens cs (c :: acc)

/-- Word count of the produced output (app specification lines 222-225):
`output ? output.trim().split(/\s+/).filter(Boolean).length : 0`. -/
def wordCount (output : String) : Nat :=
  if output = "" then 0
  else (wsTokens (jsTrim output).data []).length

/-- Character count of the produced output (app specification lines 226-228):
`output.length`. -/
def charCount (output : String) : Nat :=
  output.length

/-- The error taxonomy of the normalizer contract (spec §4.1). -/
inductive NormalizeError where
  | InvalidJson : NormalizeError
deriving DecidableEq

/-- The successful result of one normalize call. -/
structure NormalizeOutput where
  cleanText : String
  wordCount : Nat
  charCount : Nat
deriving DecidableEq

/-- Normalization of an already-parsed payload: always succeeds. -/
def normalizeJson (j : Json) : NormalizeOutput :=
  let out := cleanTextOfJson j
  { cleanText := out, wordCount := wordCount out, charCount := charCount out }

/-- The normalizer contract `normalize(rawJson)` (spec §4.1): parse, then
process; the only error is a JSON parse failure. -/
def normalize (rawJson : String) : Except NormalizeError NormalizeOutput :=
  match parseJson rawJson with
  | none => .error .InvalidJson
  | some j => .ok (normalizeJson j)

/-- The parsed payload has no usable text slot: every wrapper's events list is
empty, or every event of every wrapper has an empty (or absent) segment list. -/
def zeroSegs (ev : Json) : Bool :=
  match ev.getField "segs" with
  | some (Json.arr segs) => segs.isEmpty
  | _ => true

/-- All wrappers of the coerced payload contribute zero events or zero
segments. -/
def zeroEventsOrSegs (j : Json) : Bool :=
  (coerceWrappers j).all (fun w => (wrapperEvents w).all zeroSegs)

/-! ## Bookmarklet interceptor (src/bookmarklet.js) -/

/-- `p` is a leading segment of `s` (character lists). -/
def startsWithChars : List Char → List Char → Bool
  | _, [] => true
  | [], _ :: _ => false
  | c :: cs, p :: ps => c = p && startsWithChars cs ps

/-- `p` occurs contiguously in `s` (character lists). -/
def hasSubstrChars : List Char → List Char → Bool
  | [], p => p.isEmpty
  | c :: cs, p => startsWithChars (c :: cs) p || hasSubstrChars cs p

/-- JS `String.prototype.includes` (substring containment). -/
def strIncludes (s pat : String) : Bool :=
  hasSubstrChars s.data pat.data

/-- URL classification of the current bookmarklet (bookmarklet.js line 115):
`url && (url.includes('timedtext') || url.includes('api/timedtext'))`. -/
def isTimedTextUrl (url : String) : Bool :=
  decide (url ≠ "") && (strIncludes url "timedtext" || strIncludes url "api/timedtext")

/-- URL classification of the older bookmarklet variant kept in
functions/api/test.js (line 101):
`url && url.includes('timedtext') && !url.includes('caps=')`. -/
def isTimedTextUrlOld (url : String) : Bool :=
  decide (url ≠ "") && strIncludes url "timedtext" && !(strIncludes url "caps=")

/-- The shape test of the interception listeners (bookmarklet.js lines 129 and
164): `json.events && json.events.length > 0` under JS truthiness, where
`.length` is defined only for arrays and strings. -/
def interceptShape (j : Json) : Bool :=
  match j.getField "events" with
  | some ev =>
    jsTruthy ev &&
      (match jsLength ev with
       | some n => decide (n > 0)
       | none => false)
  | none => false

/-- The shape test of the manual-fetch path (bookmarklet.js line 332):
`json.events` alone, under JS truthiness. -/
def manualShape (j : Json) : Bool :=
  match j.getField "events" with
  | some ev => jsTruthy ev
  | none => false

/-- The XHR load listener body (bookmarklet.js lines 124-139): invokes the
capture callback with `(responseText, json)` exactly when the body is longer
than 100 characters, parses as JSON and passes the shape test; a parse failure
is caught and swallowed. -/
def xhrLoadListener (responseText : String) : Option (String × Json) :=
  if decide (responseText ≠ "") && decide (responseText.length > 100) then
    match parseJson responseText with
    | some j => if interceptShape j then some (responseText, j) else none
    | none => none
  else none

/-- The fetch clone listener (bookmarklet.js lines 159-171): the same gate,
parse and shape test applied to the cloned response body text. -/
def fetchCloneListener (text : String) : Option (String × Json) :=
  if decide (text ≠ "") && decide (text.length > 100) then
    match parseJson text with
    | some j => if interceptShape j then some (text, j) else none
    | none => none
  else none

/-- `JSON.parse` at the JS exception level: `Except.error` is a thrown
`SyntaxError`. -/
def jsonParseE (s : String) : Except String Json :=
  match parseJson s with
  | some j => .ok j
  | none => .error "SyntaxError"

/-- The XHR load listener with its try/catch made explicit (bookmarklet.js
lines 126-138): the catch arm turns a parse exception into no capture.  An
`Except.error` result would be an exception escaping into the host page. -/
def xhrLoadListenerE (responseText : String) : Except String (Option (String × Json)) :=
  if decide (responseText ≠ "") && decide (responseText.length > 100) then
    match jsonParseE responseText with
    | .ok j => .ok (if interceptShape j then some (responseText, j) else none)
    | .error _ => .ok none
  else .ok none

/-- The per-request fields the open wrapper stores on the XHR object
(bookmarklet.js lines 113-115). -/
structure XHRState where
  yt_url : Option String := none
  yt_isTimedText : Bool := false

/-- `XMLHttpRequest.prototype.open` wrapper (bookmarklet.js lines 112-120):
records the URL and its classification on the request, then delegates to
`originalOpen` and returns its value. -/
def wrappedOpen {α : Type} (originalOpen : String → String → α)
    (st : XHRState) (meth url : String) : XHRState × α :=
  ({ st with yt_url := some url, yt_isTimedText := isTimedTextUrl url },
   originalOpen meth url)

/-- `XMLHttpRequest.prototype.send` wrapper (bookmarklet.js lines 122-141):
attaches the load listener exactly when the open wrapper flagged the request
(first component), then delegates to `originalSend` and returns its value. -/
def wrappedSend {β : Type} (originalSend : Option String → β)
    (st : XHRState) (body : Option String) : Bool × β :=
  (st.yt_isTimedText, originalSend body)

/-- One XHR round trip as observed by the host caller and by the capture
callback: the caller always receives the full response text, the callback
fires only for flagged requests that pass the listener checks. -/
def xhrRoundTrip (url responseText : String) : String × Option (String × Json) :=
  (responseText, if isTimedTextUrl url then xhrLoadListener responseText else none)

/-- `window.fetch` wrapper (bookmarklet.js lines 146-178): awaits the real
`originalFetch`, observes a clone of timedtext responses (a body-read
rejection is caught by the `.catch`), and returns the original response object
unchanged to the caller. -/
def wrappedFetch {ρ : Type} (originalFetch : String → ρ)
    (cloneText : ρ → Except String String) (input : String) :
    ρ × Option (String × Json) :=
  let response := originalFetch input
  (response,
    if isTimedTextUrl input then
      match cloneText response with
      | .ok text => fetchCloneListener text
      | .error _ => none
    else none)

/-! ## Capture session (src/bookmarklet.js, closure state and handlers) -/

/-- The bookmarklet session state: `capturedTranscript` (line 70) and the two
overlay buttons the capture handler toggles (lines 309-310). -/
structure Session where
  capturedTranscript : Option String := none
  fetchBtnVisible : Bool := true
  openAppVisible : Bool := false

/-- The session at bookmarklet start. -/
def initialSession : Session := {}

/-- `onTranscriptCaptured` (bookmarklet.js lines 288-311; status display and
clipboard side effects omitted): unconditionally stores the raw payload and
toggles the buttons.  There is no already-captured guard in the source. -/
def onTranscriptCaptured (s : Session) (rawJson : String) : Session :=
  { s with capturedTranscript := some rawJson,
           openAppVisible := true,
           fetchBtnVisible := false }

/-- One intercepted candidate response processed end to end: the load listener
decides whether `onTranscriptCaptured` runs. -/
def processCandidate (s : Session) (responseText : String) : Session :=
  match xhrLoadListener responseText with
  | some (raw, _) => onTranscriptCaptured s raw
  | none => s

/-- Outcome of the manual fetch click handler (bookmarklet.js lines 314-347). -/
inductive FetchOutcome where
  | captured (raw : String) (parsed : Json) : FetchOutcome
  | failed : FetchOutcome

/-- The manual fetch handler's treatment of the fetched body text
(bookmarklet.js lines 330-338): capture when the text is longer than 100
characters, parses as JSON and `json.events` is truthy; every other case
(including the explicit `throw new Error('Empty or invalid response')`) lands
in the catch arm. -/
def manualFetchProcess (text : String) : FetchOutcome :=
  if decide (text ≠ "") && decide (text.length > 100) then
    match parseJson text with
    | some j => if manualShape j then .captured text j else .failed
    | none => .failed
  else .failed

/-- The manual-fetch path end to end on the session. -/
def manualFetchStep (s : Session) (text : String) : Session :=
  match manualFetchProcess text with
  | .captured raw _ => onTranscriptCaptured s raw
  | .failed => s

/-! ## Transcript store (src/js/db.js lines 267-296, src/functions/api/import.js) -/

/-- One row of the `transcripts` table (schema of db.js lines 160-179; the
autoincrement surrogate id and the reserved summary/tags columns are omitted).
`captured_at` is an abstract timestamp standing for `datetime('now')`. -/
structure TranscriptRow where
  video_id : String
  title : String
  channel_name : String
  video_url : String
  duration_seconds : Int
  publish_date : Option String
  raw_json : String
  clean_text : String
  language : String
  is_auto_generated : Nat
  word_count : Nat
  captured_at : Nat
deriving DecidableEq

/-- The argument object of `IndexedDBBackend.save` (db.js lines 268-271). -/
structure SaveData where
  videoId : String
  title : String
  channelName : String
  videoUrl : String
  durationSeconds : Int
  publishDate : Option String
  rawJson : String
  cleanText : String
  language : String
  isAutoGenerated : Bool
  wordCount : Nat
deriving DecidableEq

/-- The row built by the `INSERT` arm of save (db.js lines 285-291);
`captured_at` takes the column default `datetime('now')`. -/
def insertRow (now : Nat) (d : SaveData) : TranscriptRow :=
  { video_id := d.videoId, title := d.title, channel_name := d.channelName,
    video_url := d.videoUrl, duration_seconds := d.durationSeconds,
    publish_date := d.publishDate, raw_json := d.rawJson,
    clean_text := d.cleanText, language := d.language,
    is_auto_generated := if d.isAutoGenerated then 1 else 0,
    word_count := d.wordCount, captured_at := now }

/-- The column updates of the `UPDATE` arm of save (db.js lines 276-283),
including `captured_at = datetime('now')`. -/
def updateRow (now : Nat) (d : SaveData) (r : TranscriptRow) : TranscriptRow :=
  { r with title := d.title, channel_name := d.channelName,
           video_url := d.videoUrl, duration_seconds := d.durationSeconds,
           publish_date := d.publishDate, raw_json := d.rawJson,
           clean_text := d.cleanText, language := d.language,
           is_auto_generated := if d.isAutoGenerated then 1 else 0,
           word_count := d.wordCount, captured_at := now }

/-- `IndexedDBBackend.save` (db.js lines 267-296): `SELECT id FROM transcripts
WHERE video_id = ?`, then `UPDATE ... WHERE video_id = ?` on a hit or `INSERT`
otherwise.  The table is a row list; the SQL `UPDATE` rewrites every row whose
`video_id` matches. -/
def save (store : List TranscriptRow) (now : Nat) (d : SaveData) :
    List TranscriptRow :=
  if store.any (fun r => decide (r.video_id = d.videoId)) then
    store.map (fun r => if r.video_id = d.videoId then updateRow now d r else r)
  else
    store ++ [insertRow now d]

/-- Number of stored rows carrying a given video id. -/
def countId : List TranscriptRow → String → Nat
  | [], _ => 0
  | r :: rs, v => (if r.video_id = v then 1 else 0) + countId rs v

/-- The per-record upsert loop of `onRequestPost` in functions/api/import.js
(lines 21-61): records without a `video_id` are skipped (`continue`); for the
rest the handler checks for an existing row and runs the same
`UPDATE`-or-`INSERT` statement pair as save, refreshing `captured_at`. -/
def importUpsert (store : List TranscriptRow) (now : Nat)
    (ts : List SaveData) : List TranscriptRow :=
  ts.foldl (fun st t => if t.videoId = "" then st else save st now t) store

/-! ## API auth middleware (src/functions/api/_middleware.js) -/

/-- First occurrence of `p` in `s`: the characters before it and after it. -/
def splitAtSubstrChars : List Char → List Char → Option (List Char × List Char)
  | [], p => if p.isEmpty then some ([], []) else none
  | c :: cs, p =>
    if startsWithChars (c :: cs) p then some ([], (c :: cs).drop p.length)
    else
      match splitAtSubstrChars cs p with
      | some (pre, post) => some (c :: pre, post)
      | none => none

/-- JS `String.prototype.replace` with a string pattern: replaces only the
first occurrence (used as `authHeader?.replace('Bearer ', '')`,
_middleware.js line 20). -/
def jsReplaceFirst (s pat rep : String) : String :=
  match splitAtSubstrChars s.data pat.data with
  | some (pre, post) => String.mk (pre ++ rep.data ++ post)
  | none => s

/-- The permissive CORS headers of `corsHeaders()` (_middleware.js lines
42-48). -/
def corsHeaders : List (String × String) :=
  [("Access-Control-Allow-Origin", "*"),
   ("Access-Control-Allow-Methods", "GET, POST, DELETE, OPTIONS"),
   ("Access-Control-Allow-Headers", "Content-Type, Authorization")]

/-- An incoming /api/* request as the middleware sees it. -/
structure ApiRequest where
  method : String
  authorization : Option String
deriving DecidableEq

/-- What the middleware does with a request. -/
inductive MwResult where
  | corsPreflight (headers : List (String × String)) : MwResult
  | rejected (status : Nat) : MwResult
  | passedToHandler : MwResult
deriving DecidableEq

/-- The bearer token the middleware extracts (_middleware.js lines 19-20):
`request.headers.get('Authorization')?.replace('Bearer ', '')`. -/
def bearerToken (req : ApiRequest) : Option String :=
  req.authorization.map (fun h => jsReplaceFirst h "Bearer " "")

/-- `onRequest` (_middleware.js lines 8-40): answer `OPTIONS` with the CORS
headers before any check; then 500 when the `API_KEY` secret is unset (or
empty, both falsy); then 401 when the token is falsy or differs from the
secret; otherwise `next()` runs the route handler. -/
def onRequest (apiKey : Option String) (req : ApiRequest) : MwResult :=
  if req.method = "OPTIONS" then .corsPreflight corsHeaders
  else
    match apiKey with
    | none => .rejected 500
    | some key =>
      if key = "" then .rejected 500
      else
        match bearerToken req with
        | none => .rejected 401
        | some t => if t = "" ∨ t ≠ key then .rejected 401 else .passedToHandler

/-! ## Concrete inputs used by the theorems below -/

/-- The E2E scenario A input (tests/test-transcript-cleaner, test 6; spec §8). -/
def scenarioA : String :=
  "[\x7b\"events\":[\x7b\"tStartMs\":0,\"segs\":[\x7b\"utf8\":\"Hello and welcome to this video.\"\x7d]\x7d,\x7b\"tStartMs\":5000,\"segs\":[\x7b\"utf8\":\"Today we are going to talk about\\n\"\x7d]\x7d,\x7b\"tStartMs\":9000,\"segs\":[\x7b\"utf8\":\"something really interesting.\"\x7d]\x7d]\x7d]"

/-- The empty-but-valid payload of spec §8 P6. -/
def emptyEventsObj : String := "\x7b\"events\":[]\x7d"

/-- Filler making a body pass the 100-character gate. -/
def padding : String := String.mk (List.replicate 100 'a')

/-- A JSON body, longer than 100 characters, whose `events` array is empty. -/
def emptyEventsLong : String :=
  "\x7b\"events\":[],\"pad\":\"" ++ padding ++ "\"\x7d"

/-- A valid caption body, longer than 100 characters, with the given word as
its single segment text. -/
def mkBody (w : String) : String :=
  "\x7b\"events\":[\x7b\"segs\":[\x7b\"utf8\":\"" ++ w ++ "\"\x7d]\x7d],\"pad\":\"" ++ padding ++ "\"\x7d"

/-- First valid candidate body. -/
def bodyA : String := mkBody "first"

/-- Second, distinct valid candidate body. -/
def bodyB : String := mkBody "second"

/-- A caption-API URL carrying the `caps=` query marker. -/
def capsUrl : String := "https://www.youtube.com/api/timedtext?v=abc&caps=asr"

/-- A valid caption body of at most 100 characters. -/
def shortValid : String :=
  "\x7b\"events\":[\x7b\"segs\":[\x7b\"utf8\":\"hi\"\x7d]\x7d]\x7d"

/-- The parse of `shortValid`. -/
def shortValidJson : Json :=
  Json.obj [("events",
    Json.arr [Json.obj [("segs", Json.arr [Json.obj [("utf8", Json.str "hi")]])]])]

/-- The parse of `emptyEventsLong`. -/
def emptyEventsLongJson : Json :=
  Json.obj [("events", Json.arr []), ("pad", Json.str padding)]

/-- The parse of `bodyA`. -/
def bodyAJson : Json :=
  Json.obj [("events",
    Json.arr [Json.obj [("segs", Json.arr [Json.obj [("utf8", Json.str "first")]])]]),
    ("pad", Json.str padding)]

/-- A session that has already captured `bodyA`. -/
def capturedSession : Session := onTranscriptCaptured initialSession bodyA

/-- A concrete first save. -/
def dA : SaveData :=
  { videoId := "vid1", title := "Title", channelName := "Chan", videoUrl := "url",
    durationSeconds := 10, publishDate := none, rawJson := "raw1",
    cleanText := "first text", language := "en", isAutoGenerated := true,
    wordCount := 2 }

/-- The second save for the same video, with different content. -/
def dB : SaveData := { dA with cleanText := "second text", rawJson := "raw2" }

/-! ## Helper lemmas -/

theorem string_append_empty (a : String) : a ++ "" = a := by
  cases a with
  | mk l => show String.mk (l ++ []) = String.mk l; rw [List.append_nil]

theorem foldl_append_all_empty (l : List String) (h : ∀ x ∈ l, x = "") :
    ∀ a : String, List.foldl (fun r s => r ++ s) a l = a := by
  induction l with
  | nil => intro a; rfl
  | cons x xs ih =>
    intro a
    have hx : x = "" := h x (List.mem_cons_self x xs)
    rw [List.foldl_cons, hx, string_append_empty]
    exact ih (fun y hy => h y (List.mem_cons_of_mem x hy)) a

theorem join_all_empty (l : List String) (h : ∀ x ∈ l, x = "") :
    String.join l = "" :=
  foldl_append_all_empty l h ""

theorem eventText_of_zeroSegs (ev : Json) (h : zeroSegs ev = true) :
    eventText ev = "" := by
  unfold zeroSegs at h
  unfold eventText
  cases hev : ev.getField "segs" with
  | none => rfl
  | some v =>
    cases v with
    | arr segs =>
      rw [hev] at h
      have : segs = [] := by simpa [List.isEmpty_iff] using h
      rw [this]
      rfl
    | null => rfl
    | bool b => rfl
    | num n => rfl
    | str s => rfl
    | obj fs => rfl

theorem cleanText_of_zero (j : Json) (hz : zeroEventsOrSegs j = true) :
    cleanTextOfJson j = "" := by
  unfold zeroEventsOrSegs at hz
  rw [List.all_eq_true] at hz
  unfold cleanTextOfJson
  apply join_all_empty
  intro x hx
  rw [List.mem_map] at hx
  obtain ⟨w, hw, rfl⟩ := hx
  apply join_all_empty
  intro y hy
  rw [List.mem_map] at hy
  obtain ⟨ev, hev, rfl⟩ := hy
  have hall := hz w hw
  rw [List.all_eq_true] at hall
  exact eventText_of_zeroSegs ev (hall ev hev)

theorem hasSubstr_of_startsWith (s q : List Char)
    (h : startsWithChars s q = true) : hasSubstrChars s q = true := by
  cases s with
  | nil =>
    cases q with
    | nil => rfl
    | cons a qs => exact absurd h (by simp [startsWithChars])
  | cons c cs =>
    unfold hasSubstrChars
    rw [h]
    rfl

theorem hasSubstr_of_startsWith_append (p : List Char) :
    ∀ (s q : List Char), startsWithChars s (p ++ q) = true →
      hasSubstrChars s q = true := by
  induction p with
  | nil => intro s q h; exact hasSubstr_of_startsWith s q h
  | cons a ps ih =>
    intro s q h
    cases s with
    | nil => exact absurd h (by simp [startsWithChars])
    | cons c cs =>
      simp only [startsWithChars, Bool.and_eq_true] at h
      have := ih cs q h.2
      unfold hasSubstrChars
      rw [this, Bool.or_true]

theorem hasSubstr_append_right (p q : List Char) :
    ∀ s : List Char, hasSubstrChars s (p ++ q) = true →
      hasSubstrChars s q = true := by
  intro s
  induction s with
  | nil =>
    intro h
    unfold hasSubstrChars at h ⊢
    rw [List.isEmpty_iff] at h
    rcases List.append_eq_nil.mp h with ⟨_, rfl⟩
    rfl
  | cons c cs ih =>
    intro h
    unfold hasSubstrChars at h
    rw [Bool.or_eq_true] at h
    cases h with
    | inl h => exact hasSubstr_of_startsWith_append p (c :: cs) q h
    | inr h =>
      have := ih h
      unfold hasSubstrChars
      rw [this, Bool.or_true]

theorem strIncludes_timedtext_of_api (url : String)
    (h : strIncludes url "api/timedtext" = true) :
    strIncludes url "timedtext" = true := by
  have : ("api/timedtext".data : List Char) = "api/".data ++ "timedtext".data := rfl
  unfold strIncludes at h ⊢
  rw [this] at h
  exact hasSubstr_append_right _ _ _ h

theorem xhrLoadListener_eq_some (text : String) (p : String × Json)
    (h : xhrLoadListener text = some p) :
    p.1 = text ∧ parseJson text = some p.2 ∧ interceptShape p.2 = true := by
  unfold xhrLoadListener at h
  by_cases hg : (decide (text ≠ "") && decide (text.length > 100)) = true
  · rw [if_pos hg] at h
    cases hp : parseJson text with
    | none => rw [hp] at h; exact Option.noConfusion h
    | some j =>
      rw [hp] at h
      dsimp only at h
      by_cases hs : interceptShape j = true
      · rw [if_pos hs] at h
        obtain rfl : (text, j) = p := Option.some.inj h
        exact ⟨rfl, rfl, hs⟩
      · rw [if_neg hs] at h; exact Option.noConfusion h
  · rw [if_neg hg] at h; exact Option.noConfusion h

set_option maxRecDepth 100000

/-! ## Claim theorems -/

/-- C1: on the E2E scenario A input, the normalizer returns clean text exactly
"Hello and welcome to this video.Today we are going to talk about something
really interesting.", word count 15 and char count 94. -/
theorem normalize_scenarioA :
    normalize scenarioA = Except.ok
      { cleanText := "Hello and welcome to this video.Today we are going to talk about something really interesting.",
        wordCount := 15, charCount := 94 } := rfl

/-- C2: for every events array, normalizing the bare-object payload shape
yields the same result as normalizing the singleton-array shape — the two
accepted top-level shapes are interchangeable, and both always succeed. -/
theorem normalize_shape_equiv (E : List Json) :
    normalizeJson (Json.obj [("events", Json.arr E)]) =
      normalizeJson (Json.arr [Json.obj [("events", Json.arr E)]]) := rfl

/-- C6: `normalize` yields `InvalidJson` exactly when the input fails to parse
as JSON, and every parsed payload with zero events or zero segments succeeds
with clean text "", word count 0 and char count 0. -/
theorem normalize_invalid_iff_empty_ok (s : String) :
    (normalize s = Except.error NormalizeError.InvalidJson ↔ parseJson s = none) ∧
    (∀ j, parseJson s = some j → zeroEventsOrSegs j = true →
      normalize s = Except.ok { cleanText := "", wordCount := 0, charCount := 0 }) := by
  constructor
  · constructor
    · intro h
      unfold normalize at h
      cases hp : parseJson s with
      | none => rfl
      | some j => rw [hp] at h; exact Except.noConfusion h
    · intro h
      unfold normalize
      rw [h]
  · intro j hj hz
    unfold normalize
    rw [hj]
    simp only [normalizeJson, cleanText_of_zero j hz]
    rfl

/-- C6 witness: the empty-but-valid payload succeeds with empty output, and a
non-JSON input yields `InvalidJson`. -/
theorem normalize_invalid_iff_empty_ok_witness :
    normalize emptyEventsObj =
      Except.ok { cleanText := "", wordCount := 0, charCount := 0 } ∧
    normalize "this is not valid json" = Except.error NormalizeError.InvalidJson :=
  ⟨(normalize_invalid_iff_empty_ok emptyEventsObj).2
      (Json.obj [("events", Json.arr [])]) rfl rfl,
   (normalize_invalid_iff_empty_ok "this is not valid json").1.mpr rfl⟩

/-- C3 counterexample: after a first valid candidate is captured, a second,
different valid candidate replaces the stored transcript — it is not
ignored. -/
theorem second_candidate_overwrites :
    (processCandidate initialSession bodyA).capturedTranscript = some bodyA ∧
    (processCandidate (processCandidate initialSession bodyA) bodyB).capturedTranscript
      = some bodyB ∧
    bodyA ≠ bodyB :=
  ⟨rfl, rfl, by decide⟩

/-- C3 (amended): `onTranscriptCaptured` has no already-captured guard, so
every candidate accepted by the load listener overwrites the stored
transcript, whatever the session state — last valid candidate wins; the
manual-fetch button is hidden from the first capture on. -/
theorem capture_overwrites (s : Session) (body : String)
    (h : (xhrLoadListener body).isSome = true) :
    (processCandidate s body).capturedTranscript = some body ∧
    (processCandidate s body).fetchBtnVisible = false ∧
    (processCandidate s body).openAppVisible = true := by
  unfold processCandidate
  cases hx : xhrLoadListener body with
  | none => rw [hx] at h; simp at h
  | some p =>
    obtain ⟨h1, _, _⟩ := xhrLoadListener_eq_some body p hx
    cases p with
    | mk raw j =>
      dsimp only
      dsimp only at h1
      rw [h1]
      exact ⟨rfl, rfl, rfl⟩

/-- C3 amended witness: a second valid candidate applied to an
already-captured session overwrites the stored transcript. -/
theorem capture_overwrites_witness :
    (xhrLoadListener bodyB).isSome = true ∧
    capturedSession.capturedTranscript = some bodyA ∧
    (processCandidate capturedSession bodyB).capturedTranscript = some bodyB :=
  ⟨rfl, rfl, (capture_overwrites capturedSession bodyB rfl).1⟩

/-- C4 counterexample: a 122-character body whose parsed `events` array is
empty is rejected by the interception listener but captured by the manual
fetch path — the shape predicates are not applied identically, and an empty
events array does produce a capture on the manual path. -/
theorem manual_accepts_empty_events :
    xhrLoadListener emptyEventsLong = none ∧
    manualFetchProcess emptyEventsLong =
      FetchOutcome.captured emptyEventsLong emptyEventsLongJson :=
  ⟨rfl, rfl⟩

/-- C4 (amended): the interception path accepts a candidate only if its body
parses as JSON with truthy `events` of positive length, so a parsed empty
events array never captures there; the manual-fetch path checks only that
`events` is truthy, so a body longer than 100 characters whose events array is
empty is captured by manual fetch. -/
theorem shape_predicates_differ (text : String) (j : Json)
    (hp : parseJson text = some j)
    (he : j.getField "events" = some (Json.arr [])) :
    xhrLoadListener text = none ∧
    fetchCloneListener text = none ∧
    ((decide (text ≠ "") && decide (text.length > 100)) = true →
      manualFetchProcess text = FetchOutcome.captured text j) := by
  have hshape : interceptShape j = false := by
    unfold interceptShape
    rw [he]
    rfl
  have hman : manualShape j = true := by
    unfold manualShape
    rw [he]
    rfl
  refine ⟨?_, ?_, ?_⟩
  · unfold xhrLoadListener
    by_cases hg : (decide (text ≠ "") && decide (text.length > 100)) = true
    · rw [if_pos hg, hp]
      dsimp only
      rw [hshape]
      rfl
    · rw [if_neg hg]
  · unfold fetchCloneListener
    by_cases hg : (decide (text ≠ "") && decide (text.length > 100)) = true
    · rw [if_pos hg, hp]
      dsimp only
      rw [hshape]
      rfl
    · rw [if_neg hg]
  · intro hg
    unfold manualFetchProcess
    rw [if_pos hg, hp]
    dsimp only
    rw [hman]
    rfl

/-- C4 amended witness: the concrete empty-events body is captured by the
manual path. -/
theorem shape_predicates_differ_witness :
    parseJson emptyEventsLong = some emptyEventsLongJson ∧
    emptyEventsLongJson.getField "events" = some (Json.arr []) ∧
    manualFetchProcess emptyEventsLong =
      FetchOutcome.captured emptyEventsLong emptyEventsLongJson :=
  ⟨rfl, rfl,
   (shape_predicates_differ emptyEventsLong emptyEventsLongJson rfl rfl).2.2 rfl⟩

/-- C5: the wrappers are observationally transparent — the wrapped open, send
and fetch return the underlying primitive's own value, for matching and
non-matching URLs alike — and observation errors are swallowed: the load
listener's try/catch never lets an exception escape (it always returns `ok`,
agreeing with the pure observation), and a body-read rejection on the fetch
clone only suppresses the capture. -/
theorem interceptor_transparency :
    (∀ (α : Type) (originalOpen : String → String → α) (st : XHRState) (m u : String),
      (wrappedOpen originalOpen st m u).2 = originalOpen m u) ∧
    (∀ (β : Type) (originalSend : Option String → β) (st : XHRState) (body : Option String),
      (wrappedSend originalSend st body).2 = originalSend body) ∧
    (∀ (ρ : Type) (originalFetch : String → ρ) (cloneText : ρ → Except String String)
      (input : String),
      (wrappedFetch originalFetch cloneText input).1 = originalFetch input) ∧
    (∀ responseText : String,
      xhrLoadListenerE responseText = Except.ok (xhrLoadListener responseText)) ∧
    (∀ (ρ : Type) (originalFetch : String → ρ) (msg : String) (input : String),
      (wrappedFetch originalFetch (fun _ => Except.error msg) input).2 = none) := by
  refine ⟨fun _ _ _ _ _ => rfl, fun _ _ _ _ => rfl, fun _ _ _ _ => rfl, ?_, ?_⟩
  · intro t
    unfold xhrLoadListenerE xhrLoadListener jsonParseE
    by_cases hg : (decide (t ≠ "") && decide (t.length > 100)) = true
    · rw [if_pos hg, if_pos hg]
      cases parseJson t <;> rfl
    · rw [if_neg hg, if_neg hg]
  · intro ρ f msg input
    unfold wrappedFetch
    dsimp only
    by_cases hi : isTimedTextUrl input = true
    · rw [if_pos hi]
    · rw [if_neg hi]

/-- C7 counterexample: the current classifier accepts a URL that contains the
caption path segment together with the `caps=` query marker, and the
interception round trip forwards such a response to the capture callback. -/
theorem caps_url_accepted :
    isTimedTextUrl capsUrl = true ∧
    strIncludes capsUrl "caps=" = true ∧
    (xhrRoundTrip capsUrl bodyA).2 = some (bodyA, bodyAJson) :=
  ⟨rfl, rfl, rfl⟩

/-- C7 (amended): the current bookmarklet's classifier accepts a request
exactly when its URL contains "timedtext" — the `api/timedtext` disjunct is
subsumed and the `caps=` marker is not excluded; only the older bookmarklet
variant kept in functions/api/test.js additionally excludes `caps=` URLs. -/
theorem isTimedTextUrl_eq (url : String) :
    isTimedTextUrl url = strIncludes url "timedtext" ∧
    isTimedTextUrlOld url =
      (strIncludes url "timedtext" && !(strIncludes url "caps=")) := by
  constructor
  · unfold isTimedTextUrl
    by_cases h0 : url = ""
    · subst h0; rfl
    · rw [decide_eq_true h0]
      cases ha : strIncludes url "timedtext" with
      | true => rfl
      | false =>
        cases hb : strIncludes url "api/timedtext" with
        | false => rfl
        | true => exact absurd (strIncludes_timedtext_of_api url hb) (by simp [ha])
  · unfold isTimedTextUrlOld
    by_cases h0 : url = ""
    · subst h0; rfl
    · rw [decide_eq_true h0]
      simp

/-- C10: response bodies of at most 100 characters are never captured on any
path, with no error surfaced — the interception listeners yield no capture
(and the try/catch result is a plain `ok none`), the round trip forwards
nothing for any URL, and the manual fetch fails. -/
theorem length_gate (text : String) (h : text.length ≤ 100) :
    xhrLoadListener text = none ∧
    fetchCloneListener text = none ∧
    xhrLoadListenerE text = Except.ok none ∧
    (∀ url, (xhrRoundTrip url text).2 = none) ∧
    manualFetchProcess text = FetchOutcome.failed := by
  have hg : (decide (text ≠ "") && decide (text.length > 100)) = false := by
    have hn : ¬(text.length > 100) := by omega
    simp [hn]
  have hC : ¬((decide (text ≠ "") && decide (text.length > 100)) = true) := by
    rw [hg]
    exact Bool.false_ne_true
  refine ⟨?_, ?_, ?_, ?_, ?_⟩
  · unfold xhrLoadListener
    rw [if_neg hC]
  · unfold fetchCloneListener
    rw [if_neg hC]
  · unfold xhrLoadListenerE
    rw [if_neg hC]
  · intro url
    unfold xhrRoundTrip
    dsimp only
    unfold xhrLoadListener
    rw [if_neg hC, ite_self]
  · unfold manualFetchProcess
    rw [if_neg hC]

/-- C10 witness: a 37-character body that is valid JSON with a non-empty
events array is still rejected by every path. -/
theorem length_gate_witness :
    shortValid.length ≤ 100 ∧
    parseJson shortValid = some shortValidJson ∧
    interceptShape shortValidJson = true ∧
    xhrLoadListener shortValid = none ∧
    manualFetchProcess shortValid = FetchOutcome.failed :=
  ⟨by decide, rfl, rfl, (length_gate shortValid (by decide)).1,
   (length_gate shortValid (by decide)).2.2.2.2⟩

theorem countId_map_update (now : Nat) (d : SaveData) (u : String) :
    ∀ (store : List TranscriptRow) (v : String),
      countId (store.map (fun r => if r.video_id = u then updateRow now d r else r)) v
        = countId store v := by
  intro store v
  induction store with
  | nil => rfl
  | cons r rs ih =>
    simp only [List.map_cons]
    unfold countId
    rw [ih]
    congr 1
    by_cases hru : r.video_id = u
    · rw [if_pos hru]
      rfl
    · rw [if_neg hru]

theorem countId_append_one (row : TranscriptRow) :
    ∀ (store : List TranscriptRow) (v : String),
      countId (store ++ [row]) v
        = countId store v + (if row.video_id = v then 1 else 0) := by
  intro store v
  induction store with
  | nil =>
    simp [countId]
  | cons r rs ih =>
    rw [List.cons_append]
    unfold countId
    rw [ih]
    omega

theorem any_false_iff_countId_zero :
    ∀ (store : List TranscriptRow) (v : String),
      (store.any (fun r => decide (r.video_id = v)) = false) ↔ countId store v = 0 := by
  intro store v
  induction store with
  | nil => simp [countId]
  | cons r rs ih =>
    rw [List.any_cons, Bool.or_eq_false_iff]
    unfold countId
    rw [ih]
    by_cases h : r.video_id = v
    · simp [h]
    · simp [h]

theorem countId_save_le (store : List TranscriptRow) (now : Nat) (d : SaveData)
    (v : String) :
    countId (save store now d) v ≤ max (countId store v) 1 := by
  unfold save
  by_cases hany : store.any (fun r => decide (r.video_id = d.videoId)) = true
  · rw [if_pos hany, countId_map_update]
    exact le_max_left _ _
  · rw [if_neg hany, countId_append_one]
    have h0 : countId store d.videoId = 0 := by
      rw [← any_false_iff_countId_zero]
      cases h : store.any (fun r => decide (r.video_id = d.videoId)) with
      | false => rfl
      | true => exact absurd h hany
    have hrid : (insertRow now d).video_id = d.videoId := rfl
    rw [hrid]
    by_cases hv : d.videoId = v
    · rw [if_pos hv, ← hv, h0]
      omega
    · rw [if_neg hv]
      omega

theorem countId_save_eq_one (store : List TranscriptRow) (now : Nat) (d : SaveData)
    (hu : countId store d.videoId ≤ 1) :
    countId (save store now d) d.videoId = 1 := by
  unfold save
  by_cases hany : store.any (fun r => decide (r.video_id = d.videoId)) = true
  · rw [if_pos hany, countId_map_update]
    have h0 : countId store d.videoId ≠ 0 := by
      intro h0
      rw [← any_false_iff_countId_zero] at h0
      rw [hany] at h0
      exact Bool.noConfusion h0
    omega
  · rw [if_neg hany, countId_append_one]
    have h0 : countId store d.videoId = 0 := by
      rw [← any_false_iff_countId_zero]
      cases h : store.any (fun r => decide (r.video_id = d.videoId)) with
      | false => rfl
      | true => exact absurd h hany
    have hrid : (insertRow now d).video_id = d.videoId := rfl
    rw [hrid, if_pos rfl, h0]

theorem mem_save_update (store : List TranscriptRow) (now : Nat) (d : SaveData)
    (hany : store.any (fun r => decide (r.video_id = d.videoId)) = true) :
    ∀ r ∈ save store now d, r.video_id = d.videoId →
      r.clean_text = d.cleanText ∧ r.captured_at = now := by
  unfold save
  rw [if_pos hany]
  intro r hr hid
  rw [List.mem_map] at hr
  obtain ⟨r0, hr0, hmap⟩ := hr
  by_cases h0 : r0.video_id = d.videoId
  · rw [if_pos h0] at hmap
    rw [← hmap]
    exact ⟨rfl, rfl⟩
  · rw [if_neg h0] at hmap
    rw [← hmap] at hid
    exact absurd hid h0

theorem importUpsert_le_one (now : Nat) :
    ∀ (ts : List SaveData) (st : List TranscriptRow),
      (∀ v, countId st v ≤ 1) → ∀ v, countId (importUpsert st now ts) v ≤ 1 := by
  intro ts
  induction ts with
  | nil => intro st h v; exact h v
  | cons t ts ih =>
    intro st h v
    unfold importUpsert
    rw [List.foldl_cons]
    refine ih (if t.videoId = "" then st else save st now t) ?_ v
    intro v2
    by_cases ht : t.videoId = ""
    · rw [if_pos ht]
      exact h v2
    · rw [if_neg ht]
      have hle := countId_save_le st now t v2
      have := h v2
      exact le_trans hle (Nat.max_le.mpr ⟨this, le_refl 1⟩)

/-- C8: saving twice under the same video id leaves exactly one row for that
id, carrying the second save's `clean_text` and a `captured_at` refreshed by
the second save; moreover a single save never pushes the per-id row count past
one, and the import upsert loop preserves the no-duplicates invariant. -/
theorem store_upsert (store : List TranscriptRow) (t1 t2 : Nat) (d1 d2 : SaveData)
    (hid : d1.videoId = d2.videoId)
    (hu : countId store d2.videoId ≤ 1) :
    countId (save (save store t1 d1) t2 d2) d2.videoId = 1 ∧
    (∀ r ∈ save (save store t1 d1) t2 d2, r.video_id = d2.videoId →
      r.clean_text = d2.cleanText ∧ r.captured_at = t2) ∧
    (∀ (st : List TranscriptRow) (now : Nat) (d : SaveData) (v : String),
      countId (save st now d) v ≤ max (countId st v) 1) ∧
    (∀ (st : List TranscriptRow) (now : Nat) (ts : List SaveData),
      (∀ v, countId st v ≤ 1) → ∀ v, countId (importUpsert st now ts) v ≤ 1) := by
  have h1 : countId (save store t1 d1) d2.videoId = 1 := by
    rw [← hid]
    exact countId_save_eq_one store t1 d1 (by rw [hid]; exact hu)
  have hany : (save store t1 d1).any (fun r => decide (r.video_id = d2.videoId)) = true := by
    cases h : (save store t1 d1).any (fun r => decide (r.video_id = d2.videoId)) with
    | true => rfl
    | false =>
      rw [any_false_iff_countId_zero] at h
      rw [h1] at h
      exact Nat.noConfusion h
  refine ⟨?_, ?_, ?_, ?_⟩
  · exact countId_save_eq_one (save store t1 d1) t2 d2 (by omega)
  · exact mem_save_update (save store t1 d1) t2 d2 hany
  · intro st now d v
    exact countId_save_le st now d v
  · intro st now ts h v
    exact importUpsert_le_one now ts st h v

/-- C8 witness: two concrete saves for the same video id. -/
theorem store_upsert_witness :
    countId ([] : List TranscriptRow) dB.videoId ≤ 1 ∧
    dA.videoId = dB.videoId ∧
    countId (save (save [] 0 dA) 1 dB) dB.videoId = 1 ∧
    (∀ r ∈ save (save [] 0 dA) 1 dB, r.video_id = dB.videoId →
      r.clean_text = dB.cleanText ∧ r.captured_at = 1) :=
  ⟨by decide, rfl, (store_upsert [] 0 1 dA dB rfl (by decide)).1,
   (store_upsert [] 0 1 dA dB rfl (by decide)).2.1⟩

/-- C9: `OPTIONS` requests are answered with the permissive CORS headers
before any auth check; without a configured `API_KEY` secret every
non-OPTIONS request is rejected 500; with a configured secret, a missing or
mismatched bearer token is rejected 401 without reaching the handler, and
exactly a request bearing the matching token is passed to its handler. -/
theorem middleware_gate (apiKey : Option String) (req : ApiRequest) :
    (req.method = "OPTIONS" → onRequest apiKey req = MwResult.corsPreflight corsHeaders) ∧
    ("Access-Control-Allow-Origin", "*") ∈ corsHeaders ∧
    (req.method ≠ "OPTIONS" → (apiKey = none ∨ apiKey = some "") →
      onRequest apiKey req = MwResult.rejected 500) ∧
    (∀ key, req.method ≠ "OPTIONS" → apiKey = some key → key ≠ "" →
      (bearerToken req ≠ some key → onRequest apiKey req = MwResult.rejected 401) ∧
      (bearerToken req = some key → onRequest apiKey req = MwResult.passedToHandler)) := by
  refine ⟨?_, ?_, ?_, ?_⟩
  · intro h
    unfold onRequest
    rw [if_pos h]
  · simp [corsHeaders]
  · intro hm hk
    unfold onRequest
    rw [if_neg hm]
    cases hk with
    | inl h => rw [h]
    | inr h =>
      rw [h]
      rfl
  · intro key hm hk hke
    subst hk
    constructor
    · intro ht
      unfold onRequest
      rw [if_neg hm]
      dsimp only
      rw [if_neg hke]
      cases hb : bearerToken req with
      | none => rfl
      | some t =>
        have htk : t ≠ key := by
          intro h
          exact ht (by rw [hb, h])
        dsimp only
        rw [if_pos (Or.inr htk)]
    · intro ht
      unfold onRequest
      rw [if_neg hm]
      dsimp only
      rw [if_neg hke, ht]
      dsimp only
      rw [if_neg (fun hc => hc.elim hke (fun h => h rfl))]

/-- C9 witness: concrete requests exercising every middleware branch. -/
theorem middleware_gate_witness :
    onRequest (some "secret") ⟨"OPTIONS", none⟩ = MwResult.corsPreflight corsHeaders ∧
    onRequest none ⟨"GET", some "Bearer secret"⟩ = MwResult.rejected 500 ∧
    onRequest (some "secret") ⟨"GET", none⟩ = MwResult.rejected 401 ∧
    onRequest (some "secret") ⟨"GET", some "Bearer wrong"⟩ = MwResult.rejected 401 ∧
    onRequest (some "secret") ⟨"GET", some "Bearer secret"⟩ = MwResult.passedToHandler :=
  ⟨(middleware_gate (some "secret") ⟨"OPTIONS", none⟩).1 rfl,
   (middleware_gate none ⟨"GET", some "Bearer secret"⟩).2.2.1 (by decide) (Or.inl rfl),
   ((middleware_gate (some "secret") ⟨"GET", none⟩).2.2.2 "secret" (by decide) rfl
     (by decide)).1 (by decide),
   ((middleware_gate (some "secret") ⟨"GET", some "Bearer wrong"⟩).2.2.2 "secret"
     (by decide) rfl (by decide)).1 (by decide),
   ((middleware_gate (some "secret") ⟨"GET", some "Bearer secret"⟩).2.2.2 "secret"
     (by decide) rfl (by decide)).2 rfl⟩

end StaticYT
